import Mathlib

/-!
# Verification of the trace store and instrumentation wrapper

Shallow embedding of `base/backend/debug_logger.py` (class `DebugLogger`
and its `debug_track` decorator).  Python dictionaries holding trace
entries become a Lean structure `LogEntry`; the logger object becomes an
explicit state `DebugLogger` threaded through every operation; the
subscriber callback (`status_callback`) is modelled by a boolean flag
plus the list of entries it would have been invoked with, returned by
each operation as its event trace; Python exceptions become an explicit
`Option PyExc` outcome.
-/

mutual
/-- A JSON-like model of the Python runtime values that flow through the
logger: `none`/`bool`/`int`/`str`/`list`/`dict` cover the serializable
values, and `obj tyName` stands for any other Python object (which
`json.dumps` rejects), remembering only its type name. -/
inductive PyVal where
  | none : PyVal
  | bool (b : Bool) : PyVal
  | int (n : Int) : PyVal
  | str (s : String) : PyVal
  | list (l : PyList) : PyVal
  | dict (l : PyDict) : PyVal
  | obj (tyName : String) : PyVal
deriving Repr, DecidableEq

/-- A Python list of modelled values. -/
inductive PyList where
  | nil : PyList
  | cons (v : PyVal) (tl : PyList) : PyList
deriving Repr, DecidableEq

/-- A Python dict with string keys and modelled values, in insertion
order. -/
inductive PyDict where
  | nil : PyDict
  | cons (k : String) (v : PyVal) (tl : PyDict) : PyDict
deriving Repr, DecidableEq
end

instance : Inhabited PyVal := ⟨.none⟩

namespace PyVal

/-- `type(v).__name__` for the modelled values. -/
def typeName : PyVal → String
  | .none => "NoneType"
  | .bool _ => "bool"
  | .int _ => "int"
  | .str _ => "str"
  | .list _ => "list"
  | .dict _ => "dict"
  | .obj t => t

mutual
/-- Whether `json.dumps` succeeds on the value: every modelled value is
serializable except opaque objects (and containers holding one). -/
def serializable : PyVal → Bool
  | .none | .bool _ | .int _ | .str _ => true
  | .list l => serializableList l
  | .dict l => serializableDict l
  | .obj _ => false

/-- `serializable` on every element of a list. -/
def serializableList : PyList → Bool
  | .nil => true
  | .cons v tl => serializable v && serializableList tl

/-- `serializable` on every value of a dict. -/
def serializableDict : PyDict → Bool
  | .nil => true
  | .cons _ v tl => serializable v && serializableDict tl
end

mutual
/-- Model of Python `repr(v)` for the modelled values. -/
def pyRepr : PyVal → String
  | .none => "None"
  | .bool b => if b then "True" else "False"
  | .int n => toString n
  | .str s => "\x27" ++ s ++ "\x27"
  | .list l => "[" ++ pyReprList l ++ "]"
  | .dict l => "\x7b" ++ pyReprDict l ++ "\x7d"
  | .obj t => "<" ++ t ++ " object>"

/-- Comma-separated `repr`s of a list's elements. -/
def pyReprList : PyList → String
  | .nil => ""
  | .cons v .nil => pyRepr v
  | .cons v tl => pyRepr v ++ ", " ++ pyReprList tl

/-- Comma-separated `key: repr(value)` items of a dict. -/
def pyReprDict : PyDict → String
  | .nil => ""
  | .cons k v .nil => "\x27" ++ k ++ "\x27: " ++ pyRepr v
  | .cons k v tl => "\x27" ++ k ++ "\x27: " ++ pyRepr v ++ ", " ++ pyReprDict tl
end

/-- Model of Python `str(v)` (used by the wrapper only for its
`len(str(result)) < 1000` size check). Follows Python: `str` of a string
is the string itself, everything else prints as its `repr`. -/
def pyStr : PyVal → String
  | .str s => s
  | v => pyRepr v

end PyVal

/-- One trace entry: the dictionary built by `DebugLogger.add_log`.
`content` is flattened into `contentType`/`contentData`; a stored
`content["data"]` of Python `None` is `Option.none`. -/
structure LogEntry where
  id : Nat
  parent_id : Option Nat
  level : Int
  timestamp : String
  title : String
  status : String
  contentType : String
  contentData : Option PyVal
  function_name : Option String
deriving Repr, DecidableEq, Inhabited

/-- The mutable state of a `DebugLogger` instance.  The subscriber
callback is modelled by the flag `status_callback` (`true` iff a
callback is registered); the entries the callback would receive are
returned by each operation as its event list. -/
structure DebugLogger where
  logs : List LogEntry
  current_id : Nat
  level : Int
  status_callback : Bool
deriving Repr, DecidableEq, Inhabited

namespace DebugLogger

/-- `DebugLogger.__init__`. -/
def init : DebugLogger :=
  { logs := [], current_id := 0, level := 0, status_callback := false }

/-- `add_log`: assigns the next id, appends the new entry, and invokes
the subscriber with it when one is registered.  The wall-clock timestamp
produced by `_get_timestamp` is an environment input `ts`.  Returns the
new id, the new state, and the list of subscriber invocations. -/
def add_log (st : DebugLogger) (ts : String) (title : String) (status : String)
    (content_type : String) (data : Option PyVal) (parent_id : Option Nat)
    (function_name : Option String) : Nat × DebugLogger × List LogEntry :=
  let newId := st.current_id + 1
  let entry : LogEntry :=
    { id := newId
      parent_id := parent_id
      level := st.level
      timestamp := ts
      title := title
      status := status
      contentType := content_type
      contentData := data
      function_name := function_name }
  (newId,
   { st with logs := st.logs ++ [entry], current_id := newId },
   if st.status_callback then [entry] else [])

/-- `start_section`: bumps the level then adds an entry with the default
status `"success"`. -/
def start_section (st : DebugLogger) (ts : String) (title : String)
    (data : Option PyVal) (content_type : String) : Nat × DebugLogger × List LogEntry :=
  let st₁ := { st with level := st.level + 1 }
  st₁.add_log ts title "success" content_type data Option.none Option.none

/-- `end_section`: `self.level = max(0, self.level - 1)`. -/
def end_section (st : DebugLogger) : DebugLogger :=
  { st with level := max 0 (st.level - 1) }

/-- `get_logs`. -/
def get_logs (st : DebugLogger) : List LogEntry := st.logs

/-- `clear`: discards entries, resets the id counter and the level.  It
does not touch `status_callback`. -/
def clear (st : DebugLogger) : DebugLogger :=
  { st with logs := [], current_id := 0, level := 0 }

/-- `set_status_callback` (registration state only; the callback's
behaviour is observed through the event lists). -/
def set_status_callback (st : DebugLogger) (registered : Bool) : DebugLogger :=
  { st with status_callback := registered }

/-- The assignments `log["status"] = status` and (when `data` is not
Python `None`, i.e. not `Option.none`) `log["content"]["data"] = data`
applied to one entry. -/
def updEntry (e : LogEntry) (status : String) (data : Option PyVal) : LogEntry :=
  { e with
    status := status
    contentData := match data with
      | Option.some d => Option.some d
      | Option.none => e.contentData }

/-- The loop body of `update_log_status`: walk the list, update the
first entry whose id matches (`break` afterwards), and report the
updated entry (the value passed to the subscriber callback). -/
def updateFirst : List LogEntry → Nat → String → Option PyVal →
    List LogEntry × Option LogEntry
  | [], _, _, _ => ([], Option.none)
  | e :: rest, log_id, status, data =>
      if e.id = log_id then
        (updEntry e status data :: rest, Option.some (updEntry e status data))
      else
        let (rest', found) := updateFirst rest log_id status data
        (e :: rest', found)

/-- `update_log_status`: updates the first entry with the given id (a
silent no-op when no entry matches) and invokes the subscriber with the
updated entry when one is registered. -/
def update_log_status (st : DebugLogger) (log_id : Nat) (status : String)
    (data : Option PyVal) : DebugLogger × List LogEntry :=
  let (logs', found) := updateFirst st.logs log_id status data
  ({ st with logs := logs' },
   match found with
   | Option.some e => if st.status_callback then [e] else []
   | Option.none => [])

/-- The error path's trailing loop: `log["content"]["type"] = "clickable"`
on the first entry whose id matches (`break` afterwards). -/
def forceClickable : List LogEntry → Nat → List LogEntry
  | [], _ => []
  | e :: rest, log_id =>
      if e.id = log_id then { e with contentType := "clickable" } :: rest
      else e :: forceClickable rest log_id

end DebugLogger

/-- Build a `PyDict` from an association list, preserving order. -/
def PyDict.ofList : List (String × PyVal) → PyDict
  | [] => .nil
  | (k, v) :: tl => .cons k v (PyDict.ofList tl)

/-- A Python exception as the wrapper observes it: `str(e)`,
`type(e).__name__`, and `traceback.format_exc()` (the latter is runtime
environment data carried with the exception). -/
structure PyExc where
  message : String
  excType : String
  traceback : String
deriving Repr, DecidableEq

/-- The configuration of one `debug_track`-instrumented call: the
decorator arguments plus the runtime-reflection data the wrapper reads
(`captured_inputs` models the result of the `inspect`-based argument
capture loop, empty when capture found nothing; `source` models the
dictionary `_get_function_source` returns; `ts` is the wall-clock
timestamp of `add_log`). -/
structure TrackCfg where
  title : Option String
  content_type : String
  track_args : Bool
  track_result : Bool
  optional : Bool
  func_name : String
  captured_inputs : PyDict
  source : PyVal
  ts : String
deriving Repr, DecidableEq

/-- Capitalization of one word, as Python `str.title` does it: first
character upper-cased, the rest lower-cased. -/
def pyCapitalize (w : String) : String :=
  match w.toList with
  | [] => ""
  | c :: rest => String.mk (c.toUpper :: rest.map Char.toLower)

/-- Python `s.title()` on a space-separated string. -/
def pyTitleCase (s : String) : String :=
  String.intercalate " " ((s.splitOn " ").map pyCapitalize)

/-- `func_title = title or f"Executing {func.__name__.replace('_', ' ').title()}"`:
a missing title and an empty title (both falsy in Python) fall back to
the auto-generated one. -/
def funcTitle (cfg : TrackCfg) : String :=
  let auto := "Executing " ++ pyTitleCase (cfg.func_name.replace "_" " ")
  match cfg.title with
  | Option.some t => if t.isEmpty then auto else t
  | Option.none => auto

/-- `input_data`: the captured arguments when `track_args` is set, the
empty dict otherwise. -/
def trackInputData (cfg : TrackCfg) : PyDict :=
  if cfg.track_args then cfg.captured_inputs else PyDict.nil

/-- `input_data if input_data else None` (an empty dict is falsy). -/
def dataOfInput (input_data : PyDict) : Option PyVal :=
  if input_data = PyDict.nil then Option.none else Option.some (PyVal.dict input_data)

/-- The `result_data` dictionary the wrapper builds on success: inputs
section (when any were captured), source section, and — when
`track_result` is set — the output, replaced by a size placeholder when
`len(str(result)) >= 1000` and by a type placeholder when the result is
not JSON-serializable; a result of `None` with `track_result` records an
output of `None`. -/
def successData (cfg : TrackCfg) (input_data : PyDict) (result : PyVal) : PyVal :=
  let base : List (String × PyVal) :=
    (if input_data = PyDict.nil then [] else [("📥 INPUTS", PyVal.dict input_data)])
      ++ [("💻 SOURCE", cfg.source)]
  let outSection : List (String × PyVal) :=
    if cfg.track_result then
      if result = PyVal.none then [("📤 OUTPUT", PyVal.none)]
      else if result.serializable then
        if (result.pyStr).length < 1000 then [("📤 OUTPUT", result)]
        else [("📤 OUTPUT", PyVal.str ("<Large result: " ++ result.typeName ++ ">"))]
      else [("📤 OUTPUT", PyVal.str ("<" ++ result.typeName ++ " object>"))]
    else []
  PyVal.dict (PyDict.ofList (base ++ outSection))

/-- The `error_data` dictionary the wrapper builds when the wrapped
call raises. -/
def errorData (cfg : TrackCfg) (input_data : PyDict) (e : PyExc) : PyVal :=
  PyVal.dict (PyDict.ofList (
    (if input_data = PyDict.nil then [] else [("📥 INPUTS", PyVal.dict input_data)])
      ++ [("💻 SOURCE", cfg.source),
          ("❌ ERROR", PyVal.dict (PyDict.ofList
            [("error_message", PyVal.str e.message),
             ("error_type", PyVal.str e.excType),
             ("full_traceback", PyVal.str e.traceback),
             ("function_name", PyVal.str cfg.func_name),
             ("optional_failure", PyVal.str (if cfg.optional then "True" else "False"))]))]))

/-- The wrapper's `except Exception` block followed by its `finally`:
update the entry to `error` with the error snapshot, force its content
type to `clickable`, decide propagation from `optional`, and decrement
the level.  Returns the wrapper's result (`ok None` when the failure is
contained, `error e` when it propagates), the state, and the subscriber
events. -/
def trackedErrorFinish (cfg : TrackCfg) (input_data : PyDict) (log_id : Nat)
    (e : PyExc) (st : DebugLogger) : Except PyExc PyVal × DebugLogger × List LogEntry :=
  let (st₁, ev) := st.update_log_status log_id "error"
    (Option.some (errorData cfg input_data e))
  let st₂ := { st₁ with logs := DebugLogger.forceClickable st₁.logs log_id }
  let st₃ := { st₂ with level := st₂.level - 1 }
  (if cfg.optional then Except.ok PyVal.none else Except.error e, st₃, ev)

/-- The wrapper's success epilogue followed by its `finally`: update the
entry to `success` with the result snapshot and decrement the level. -/
def trackedSuccessFinish (cfg : TrackCfg) (input_data : PyDict) (log_id : Nat)
    (result : PyVal) (st : DebugLogger) : Except PyExc PyVal × DebugLogger × List LogEntry :=
  let (st₁, ev) := st.update_log_status log_id "success"
    (Option.some (successData cfg input_data result))
  let st₂ := { st₁ with level := st₁.level - 1 }
  (Except.ok result, st₂, ev)

/-- What the wrapped unit of work does once the wrapper invokes it:
return a value (`PyVal.none` is Python `None`) or raise. -/
inductive Outcome where
  | ret (v : PyVal) : Outcome
  | raise (e : PyExc) : Outcome
deriving Repr, DecidableEq

/-- Forgetting a wrapper's returned value, keeping only the exception it
propagates (`None` results and contained failures both propagate
nothing). -/
def dropResult : Except PyExc PyVal × DebugLogger × List LogEntry →
    DebugLogger × List LogEntry × Option PyExc
  | (Except.error e, st, ev) => (st, ev, Option.some e)
  | (Except.ok _, st, ev) => (st, ev, Option.none)

mutual
/-- One operation against the shared `DebugLogger`: the public store
methods, plus `tracked`, a call through a `debug_track`-wrapped
function whose body may itself perform further operations (nested
instrumented calls included) before finishing with `outcome`. -/
inductive Op where
  | addEntry (ts title status content_type : String) (data : Option PyVal)
      (parent_id : Option Nat) (function_name : Option String) : Op
  | updateEntry (log_id : Nat) (status : String) (data : Option PyVal) : Op
  | startSec (ts title : String) (data : Option PyVal) (content_type : String) : Op
  | endSec : Op
  | clearOp : Op
  | setCallback (registered : Bool) : Op
  | tracked (cfg : TrackCfg) (body : OpList) (outcome : Outcome) : Op
deriving Repr, DecidableEq

/-- A sequence of operations. -/
inductive OpList where
  | nil : OpList
  | cons (op : Op) (tl : OpList) : OpList
deriving Repr, DecidableEq
end

mutual
/-- Big-step semantics of one operation: final state, subscriber events
in order, and the exception it raises, if any.  The `tracked` case is
the body of `async_wrapper` (the `sync_wrapper` body is the same;
`AsyncWrapper.run`/`SyncWrapper.run` below restate both verbatim and
are proved to coincide with this case). -/
def runOp : Op → DebugLogger → DebugLogger × List LogEntry × Option PyExc
  | .addEntry ts title status content_type data parent_id function_name, st =>
      let (_, st', ev) := st.add_log ts title status content_type data parent_id function_name
      (st', ev, Option.none)
  | .updateEntry log_id status data, st =>
      let (st', ev) := st.update_log_status log_id status data
      (st', ev, Option.none)
  | .startSec ts title data content_type, st =>
      let (_, st', ev) := st.start_section ts title data content_type
      (st', ev, Option.none)
  | .endSec, st => (st.end_section, [], Option.none)
  | .clearOp, st => (st.clear, [], Option.none)
  | .setCallback b, st => (st.set_status_callback b, [], Option.none)
  | .tracked cfg body outcome, st =>
      -- the body of `async_wrapper`, with the returned value dropped
      dropResult (
        let func_title := funcTitle cfg
        let input_data := trackInputData cfg
        -- `self.level += 1` then `add_log(..., status="pending", ...)`
        let st₁ := { st with level := st.level + 1 }
        let (log_id, st₂, ev₀) := st₁.add_log cfg.ts func_title "pending"
          cfg.content_type (dataOfInput input_data) Option.none (Option.some cfg.func_name)
        -- `await asyncio.sleep(0.05)`: real time is not modelled
        let (st₃, ev₁, bodyExc) := runOps body st₂
        match bodyExc with
        | Option.some e =>
            -- the wrapped function raised while running its body
            let (r, st₄, ev₂) := trackedErrorFinish cfg input_data log_id e st₃
            (r, st₄, ev₀ ++ ev₁ ++ ev₂)
        | Option.none =>
            match outcome with
            | Outcome.ret result =>
                let (r, st₄, ev₂) := trackedSuccessFinish cfg input_data log_id result st₃
                (r, st₄, ev₀ ++ ev₁ ++ ev₂)
            | Outcome.raise e =>
                let (r, st₄, ev₂) := trackedErrorFinish cfg input_data log_id e st₃
                (r, st₄, ev₀ ++ ev₁ ++ ev₂))

/-- Big-step semantics of a sequence: an exception aborts the remaining
operations (it propagates out of the wrapped body). -/
def runOps : OpList → DebugLogger → DebugLogger × List LogEntry × Option PyExc
  | .nil, st => (st, [], Option.none)
  | .cons op tl, st =>
      let (st₁, ev₁, exc) := runOp op st
      match exc with
      | Option.some e => (st₁, ev₁, Option.some e)
      | Option.none =>
          let (st₂, ev₂, exc₂) := runOps tl st₁
          (st₂, ev₁ ++ ev₂, exc₂)
end

namespace AsyncWrapper

/-- Transcription of `async_wrapper` (`debug_logger.py`, lines 134-246).
The wrapped coroutine `func` is modelled by `runBody`, the state
transformer its body induces on the shared logger, together with
`outcome`, its returned value or raised exception.  `await` suspension
points and `asyncio.sleep(0.05)` have no effect on the store and are
not modelled.  Returns the wrapper's result (value or propagated
exception), the final state, and the subscriber events in order. -/
def run (runBody : DebugLogger → DebugLogger × List LogEntry × Option PyExc)
    (cfg : TrackCfg) (outcome : Outcome) (st : DebugLogger) :
    Except PyExc PyVal × DebugLogger × List LogEntry :=
  let func_title := funcTitle cfg
  let input_data := trackInputData cfg
  let st₁ := { st with level := st.level + 1 }
  let (log_id, st₂, ev₀) := st₁.add_log cfg.ts func_title "pending" cfg.content_type
    (dataOfInput input_data) Option.none (Option.some cfg.func_name)
  let (st₃, ev₁, bodyExc) := runBody st₂
  match bodyExc with
  | Option.some e =>
      let (r, st₄, ev₂) := trackedErrorFinish cfg input_data log_id e st₃
      (r, st₄, ev₀ ++ ev₁ ++ ev₂)
  | Option.none =>
      match outcome with
      | Outcome.ret result =>
          let (r, st₄, ev₂) := trackedSuccessFinish cfg input_data log_id result st₃
          (r, st₄, ev₀ ++ ev₁ ++ ev₂)
      | Outcome.raise e =>
          let (r, st₄, ev₂) := trackedErrorFinish cfg input_data log_id e st₃
          (r, st₄, ev₀ ++ ev₁ ++ ev₂)

end AsyncWrapper

namespace SyncWrapper

/-- Transcription of `sync_wrapper` (`debug_logger.py`, lines 248-361).
The wrapped plain function `func` is modelled by `runBody` and
`outcome` exactly as in `AsyncWrapper.run`; `time.sleep(0.05)` has no
effect on the store and is not modelled.  The Python body is line for
line the body of `async_wrapper` except that the call to `func` is not
awaited and the delay is the blocking `time.sleep`. -/
def run (runBody : DebugLogger → DebugLogger × List LogEntry × Option PyExc)
    (cfg : TrackCfg) (outcome : Outcome) (st : DebugLogger) :
    Except PyExc PyVal × DebugLogger × List LogEntry :=
  let func_title := funcTitle cfg
  let input_data := trackInputData cfg
  let st₁ := { st with level := st.level + 1 }
  let (log_id, st₂, ev₀) := st₁.add_log cfg.ts func_title "pending" cfg.content_type
    (dataOfInput input_data) Option.none (Option.some cfg.func_name)
  let (st₃, ev₁, bodyExc) := runBody st₂
  match bodyExc with
  | Option.some e =>
      let (r, st₄, ev₂) := trackedErrorFinish cfg input_data log_id e st₃
      (r, st₄, ev₀ ++ ev₁ ++ ev₂)
  | Option.none =>
      match outcome with
      | Outcome.ret result =>
          let (r, st₄, ev₂) := trackedSuccessFinish cfg input_data log_id result st₃
          (r, st₄, ev₀ ++ ev₁ ++ ev₂)
      | Outcome.raise e =>
          let (r, st₄, ev₂) := trackedErrorFinish cfg input_data log_id e st₃
          (r, st₄, ev₀ ++ ev₁ ++ ev₂)

end SyncWrapper

/-- The pending entry that the wrapper's initial `add_log` call creates
for a `tracked` call entered in state `st`. -/
def pendingEntry (cfg : TrackCfg) (st : DebugLogger) : LogEntry :=
  { id := st.current_id + 1
    parent_id := Option.none
    level := st.level + 1
    timestamp := cfg.ts
    title := funcTitle cfg
    status := "pending"
    contentType := cfg.content_type
    contentData := dataOfInput (trackInputData cfg)
    function_name := Option.some cfg.func_name }

/-- Store invariant: every stored id is at most the id counter (true of
every state the logger can actually reach, since `add_log` allocates
`current_id + 1` and `clear` empties the list). -/
def idsBounded (st : DebugLogger) : Prop := ∀ e ∈ st.logs, e.id ≤ st.current_id

mutual
/-- Operations the wrapper ecosystem itself performs: only `tracked`
calls, nested arbitrarily. -/
def trackedOnlyOp : Op → Bool
  | .tracked _ body _ => trackedOnlyOps body
  | _ => false

/-- `trackedOnlyOp` on every operation of the sequence. -/
def trackedOnlyOps : OpList → Bool
  | .nil => true
  | .cons op tl => trackedOnlyOp op && trackedOnlyOps tl
end

/-- The state after the wrapper's prologue: `self.level += 1` followed
by the pending `add_log`. -/
def trackedEnter (cfg : TrackCfg) (st : DebugLogger) : DebugLogger :=
  { st with
      logs := st.logs ++ [pendingEntry cfg st]
      current_id := st.current_id + 1
      level := st.level + 1 }

/-- One argument tuple for an `add_log` call. -/
structure AddArgs where
  ts : String
  title : String
  status : String
  content_type : String
  data : Option PyVal
  parent_id : Option Nat
  function_name : Option String

/-- A sequence of consecutive `add_log` calls; returns the ids in call
order and the final state. -/
def addMany (st : DebugLogger) : List AddArgs → List Nat × DebugLogger
  | [] => ([], st)
  | a :: rest =>
      let (i, st₁, _) := st.add_log a.ts a.title a.status a.content_type a.data
        a.parent_id a.function_name
      let (is, st₂) := addMany st₁ rest
      (i :: is, st₂)

/-- A sample stored entry used to evaluate the theorems on concrete
input. -/
def sampleEntry : LogEntry :=
  { id := 1, parent_id := Option.none, level := 0, timestamp := "t0", title := "Fetch",
    status := "pending", contentType := "inline", contentData := Option.none,
    function_name := Option.some "fetch_data" }

/-- A sample store state with one entry and a registered subscriber. -/
def sampleSt : DebugLogger :=
  { logs := [sampleEntry], current_id := 1, level := 0, status_callback := true }

/-- A sample wrapper configuration for concrete evaluation. -/
def sampleCfg : TrackCfg :=
  { title := Option.some "Fetch", content_type := "clickable", track_args := false,
    track_result := true, optional := false, func_name := "fetch_data",
    captured_inputs := PyDict.nil, source := PyVal.str "def fetch_data(): ...",
    ts := "t1" }

/-- `sampleCfg` with `optional = True`. -/
def sampleOptCfg : TrackCfg := { sampleCfg with optional := true }

/-- A sample exception. -/
def sampleExc : PyExc :=
  { message := "boom", excType := "ValueError", traceback := "Traceback ..." }

mutual
/-- Operations a wrapper-disciplined body may perform: nested
instrumented calls and raw entry additions/updates (`add_log`,
`update_log_status`) — but no `clear` and no unmatched
`start_section`/`end_section`, which would desynchronize the level
before the wrapper's own `finally` decrement. -/
def levelSafeOp : Op → Bool
  | .tracked _ body _ => levelSafeOps body
  | .addEntry _ _ _ _ _ _ _ => true
  | .updateEntry _ _ _ => true
  | _ => false

/-- `levelSafeOp` on every operation of the sequence. -/
def levelSafeOps : OpList → Bool
  | .nil => true
  | .cons op tl => levelSafeOp op && levelSafeOps tl
end

/-- Top-level operations whose tracked bodies are wrapper-disciplined
(`levelSafe`); the store methods themselves may appear freely at the
top level. -/
def disciplinedOp : Op → Bool
  | .tracked _ body _ => levelSafeOps body
  | _ => true

/-- `disciplinedOp` over a sequence. -/
def disciplinedOps : OpList → Bool
  | .nil => true
  | .cons op tl => disciplinedOp op && disciplinedOps tl

/-- The semantics' `tracked` case is the async wrapper run on its body's
semantics, with the returned value forgotten. -/
theorem runOp_tracked_eq_asyncRun (cfg : TrackCfg) (body : OpList) (outcome : Outcome)
    (st : DebugLogger) :
    runOp (Op.tracked cfg body outcome) st =
      dropResult (AsyncWrapper.run (runOps body) cfg outcome st) := rfl

namespace DebugLogger

theorem updateFirst_not_found (logs : List LogEntry) (log_id : Nat) (status : String)
    (data : Option PyVal) (h : ∀ e ∈ logs, e.id ≠ log_id) :
    updateFirst logs log_id status data = (logs, Option.none) := by
  induction logs with
  | nil => rfl
  | cons e rest ih =>
      have he : e.id ≠ log_id := h e (by simp)
      have ih' := ih (fun x hx => h x (by simp [hx]))
      simp [updateFirst, he, ih']

theorem updateFirst_found (pre : List LogEntry) (e : LogEntry) (post : List LogEntry)
    (log_id : Nat) (status : String) (data : Option PyVal)
    (hid : e.id = log_id) (hpre : ∀ x ∈ pre, x.id ≠ log_id) :
    updateFirst (pre ++ e :: post) log_id status data =
      (pre ++ updEntry e status data :: post, Option.some (updEntry e status data)) := by
  induction pre with
  | nil => simp [updateFirst, hid]
  | cons x xs ih =>
      have hx : x.id ≠ log_id := hpre x (by simp)
      have ih' := ih (fun y hy => hpre y (by simp [hy]))
      simp [updateFirst, hx, ih']

theorem forceClickable_not_found (logs : List LogEntry) (log_id : Nat)
    (h : ∀ e ∈ logs, e.id ≠ log_id) :
    forceClickable logs log_id = logs := by
  induction logs with
  | nil => rfl
  | cons e rest ih =>
      have he : e.id ≠ log_id := h e (by simp)
      have ih' := ih (fun x hx => h x (by simp [hx]))
      simp [forceClickable, he, ih']

theorem forceClickable_found (pre : List LogEntry) (e : LogEntry) (post : List LogEntry)
    (log_id : Nat) (hid : e.id = log_id) (hpre : ∀ x ∈ pre, x.id ≠ log_id) :
    forceClickable (pre ++ e :: post) log_id =
      pre ++ { e with contentType := "clickable" } :: post := by
  induction pre with
  | nil => simp [forceClickable, hid]
  | cons x xs ih =>
      have hx : x.id ≠ log_id := hpre x (by simp)
      have ih' := ih (fun y hy => hpre y (by simp [hy]))
      simp [forceClickable, hx, ih']

theorem update_log_status_found (st : DebugLogger) (pre : List LogEntry) (e : LogEntry)
    (post : List LogEntry) (log_id : Nat) (status : String) (data : Option PyVal)
    (hsplit : st.logs = pre ++ e :: post) (hid : e.id = log_id)
    (hpre : ∀ x ∈ pre, x.id ≠ log_id) :
    st.update_log_status log_id status data =
      ({ st with logs := pre ++ updEntry e status data :: post },
       if st.status_callback then [updEntry e status data] else []) := by
  unfold update_log_status
  rw [hsplit, updateFirst_found pre e post log_id status data hid hpre]

theorem update_log_status_missing (st : DebugLogger) (log_id : Nat) (status : String)
    (data : Option PyVal) (h : ∀ e ∈ st.logs, e.id ≠ log_id) :
    st.update_log_status log_id status data = (st, []) := by
  unfold update_log_status
  rw [updateFirst_not_found st.logs log_id status data h]

end DebugLogger

theorem add_log_pending (cfg : TrackCfg) (st : DebugLogger) :
    DebugLogger.add_log { st with level := st.level + 1 } cfg.ts (funcTitle cfg) "pending"
      cfg.content_type (dataOfInput (trackInputData cfg)) Option.none
      (Option.some cfg.func_name) =
    (st.current_id + 1, trackedEnter cfg st,
     if st.status_callback then [pendingEntry cfg st] else []) := rfl

/-- Exact result of a wrapper run whose body completes without raising
and whose wrapped function returns `v`: the pending entry becomes
`success` carrying the result snapshot, the level is restored by the
`finally`, and the subscriber sees the pending entry, the body's
events, then the success entry. -/
theorem asyncRun_success_eq
    (runBody : DebugLogger → DebugLogger × List LogEntry × Option PyExc)
    (cfg : TrackCfg) (v : PyVal) (st st₃ : DebugLogger) (ev₁ tail : List LogEntry)
    (hB : idsBounded st)
    (hrb : runBody (trackedEnter cfg st) = (st₃, ev₁, Option.none))
    (hlogs : st₃.logs = st.logs ++ pendingEntry cfg st :: tail) :
    AsyncWrapper.run runBody cfg (Outcome.ret v) st =
      (Except.ok v,
       { st₃ with
           logs := st.logs ++ DebugLogger.updEntry (pendingEntry cfg st) "success"
             (Option.some (successData cfg (trackInputData cfg) v)) :: tail
           level := st₃.level - 1 },
       (if st.status_callback then [pendingEntry cfg st] else []) ++ ev₁ ++
         (if st₃.status_callback then
            [DebugLogger.updEntry (pendingEntry cfg st) "success"
              (Option.some (successData cfg (trackInputData cfg) v))] else [])) := by
  have hpre : ∀ x ∈ st.logs, x.id ≠ st.current_id + 1 := fun x hx => by
    have := hB x hx; omega
  have hupd := DebugLogger.update_log_status_found st₃ st.logs (pendingEntry cfg st) tail
    (st.current_id + 1) "success" (Option.some (successData cfg (trackInputData cfg) v))
    hlogs rfl hpre
  simp only [AsyncWrapper.run, add_log_pending, hrb, trackedSuccessFinish, hupd]

/-- Exact result of a wrapper run that observes a failure `e` — either
its body raised `e`, or the body completed and the wrapped function
raised `e`: the pending entry becomes `error` carrying the error
snapshot and its content type is forced to `clickable`; the level is
restored by the `finally`; a contained (`optional`) failure returns
`None`, otherwise `e` propagates. -/
theorem asyncRun_error_eq
    (runBody : DebugLogger → DebugLogger × List LogEntry × Option PyExc)
    (cfg : TrackCfg) (outcome : Outcome) (e : PyExc)
    (st st₃ : DebugLogger) (ev₁ tail : List LogEntry)
    (hB : idsBounded st)
    (hfail : runBody (trackedEnter cfg st) = (st₃, ev₁, Option.some e) ∨
             (runBody (trackedEnter cfg st) = (st₃, ev₁, Option.none) ∧
              outcome = Outcome.raise e))
    (hlogs : st₃.logs = st.logs ++ pendingEntry cfg st :: tail) :
    AsyncWrapper.run runBody cfg outcome st =
      ((if cfg.optional then Except.ok PyVal.none else Except.error e),
       { st₃ with
           logs := st.logs ++ { DebugLogger.updEntry (pendingEntry cfg st) "error"
               (Option.some (errorData cfg (trackInputData cfg) e)) with
               contentType := "clickable" } :: tail
           level := st₃.level - 1 },
       (if st.status_callback then [pendingEntry cfg st] else []) ++ ev₁ ++
         (if st₃.status_callback then
            [DebugLogger.updEntry (pendingEntry cfg st) "error"
              (Option.some (errorData cfg (trackInputData cfg) e))] else [])) := by
  have hpre : ∀ x ∈ st.logs, x.id ≠ st.current_id + 1 := fun x hx => by
    have := hB x hx; omega
  have hupd := DebugLogger.update_log_status_found st₃ st.logs (pendingEntry cfg st) tail
    (st.current_id + 1) "error" (Option.some (errorData cfg (trackInputData cfg) e))
    hlogs rfl hpre
  have hclick := DebugLogger.forceClickable_found st.logs
    (DebugLogger.updEntry (pendingEntry cfg st) "error"
      (Option.some (errorData cfg (trackInputData cfg) e))) tail
    (st.current_id + 1) rfl hpre
  rcases hfail with h | ⟨h, ho⟩
  · simp only [AsyncWrapper.run, add_log_pending, h, trackedErrorFinish, hupd, hclick]
  · subst ho
    simp only [AsyncWrapper.run, add_log_pending, h, trackedErrorFinish, hupd, hclick]

/-- `trackedEnter` keeps ids bounded. -/
theorem idsBounded_trackedEnter (cfg : TrackCfg) (st : DebugLogger)
    (hB : idsBounded st) : idsBounded (trackedEnter cfg st) := by
  intro e he
  simp only [trackedEnter, List.mem_append, List.mem_singleton] at he
  rcases he with he | he
  · have := hB e he; simp only [trackedEnter]; omega
  · subst he; simp [trackedEnter, pendingEntry]

theorem dropResult_pair (r : Except PyExc PyVal) (s : DebugLogger) (ev : List LogEntry) :
    ∃ o, dropResult (r, s, ev) = (s, ev, o) := by
  cases r with
  | error e => exact ⟨Option.some e, rfl⟩
  | ok v => exact ⟨Option.none, rfl⟩

theorem mem_if_singleton {c : Prop} [Decidable c] {x e : LogEntry}
    (h : e ∈ (if c then [x] else ([] : List LogEntry))) : e = x := by
  by_cases hc : c
  · rw [if_pos hc] at h; simpa using h
  · rw [if_neg hc] at h; simp at h

mutual
/-- Frame facts for one wrapper-disciplined (`trackedOnly`) operation:
the id counter only grows, the level and the subscriber registration
are restored, the old log prefix is untouched, and every new entry and
every emitted event carries an id strictly in the window
`(st.current_id, st'.current_id]`. -/
theorem runOp_spec (op : Op) (st st' : DebugLogger) (ev : List LogEntry)
    (exc : Option PyExc) (hop : trackedOnlyOp op = true) (hB : idsBounded st)
    (hrun : runOp op st = (st', ev, exc)) :
    st.current_id ≤ st'.current_id ∧ st'.level = st.level ∧
    st'.status_callback = st.status_callback ∧
    (∃ tail, st'.logs = st.logs ++ tail ∧
      ∀ e ∈ tail, st.current_id < e.id ∧ e.id ≤ st'.current_id) ∧
    (∀ e ∈ ev, st.current_id < e.id ∧ e.id ≤ st'.current_id) := by
  cases op with
  | addEntry ts title status ct d p f => simp [trackedOnlyOp] at hop
  | updateEntry i s d => simp [trackedOnlyOp] at hop
  | startSec ts t d ct => simp [trackedOnlyOp] at hop
  | endSec => simp [trackedOnlyOp] at hop
  | clearOp => simp [trackedOnlyOp] at hop
  | setCallback b => simp [trackedOnlyOp] at hop
  | tracked cfg body outcome =>
      have hbody : trackedOnlyOps body = true := by
        simpa [trackedOnlyOp] using hop
      rcases hrb : runOps body (trackedEnter cfg st) with ⟨st₃, ev₁, bexc⟩
      obtain ⟨hmono, hlvl, hcb, ⟨btail, hlogs3, hwin⟩, hev⟩ :=
        runOps_spec body (trackedEnter cfg st) st₃ ev₁ bexc hbody
          (idsBounded_trackedEnter cfg st hB) hrb
      have hmono' : st.current_id + 1 ≤ st₃.current_id := by
        simpa [trackedEnter] using hmono
      have hlvl' : st₃.level = st.level + 1 := by
        simpa [trackedEnter] using hlvl
      have hcb' : st₃.status_callback = st.status_callback := by
        simpa [trackedEnter] using hcb
      have hwin' : ∀ e ∈ btail, st.current_id + 1 < e.id ∧ e.id ≤ st₃.current_id := by
        simpa [trackedEnter] using hwin
      have hev' : ∀ e ∈ ev₁, st.current_id + 1 < e.id ∧ e.id ≤ st₃.current_id := by
        simpa [trackedEnter] using hev
      have hlogs : st₃.logs = st.logs ++ pendingEntry cfg st :: btail := by
        rw [hlogs3]; simp [trackedEnter]
      rw [runOp_tracked_eq_asyncRun] at hrun
      cases bexc with
      | some e =>
          rw [asyncRun_error_eq (runOps body) cfg outcome e st st₃ ev₁ btail hB
            (Or.inl hrb) hlogs] at hrun
          obtain ⟨o, ho⟩ := dropResult_pair
            (if cfg.optional then Except.ok PyVal.none else Except.error e)
            ({ st₃ with
                logs := st.logs ++ { DebugLogger.updEntry (pendingEntry cfg st) "error"
                    (Option.some (errorData cfg (trackInputData cfg) e)) with
                    contentType := "clickable" } :: btail
                level := st₃.level - 1 })
            ((if st.status_callback then [pendingEntry cfg st] else []) ++ ev₁ ++
              (if st₃.status_callback then
                [DebugLogger.updEntry (pendingEntry cfg st) "error"
                  (Option.some (errorData cfg (trackInputData cfg) e))] else []))
          rw [ho] at hrun
          simp only [Prod.mk.injEq] at hrun
          obtain ⟨rfl, rfl, rfl⟩ := hrun
          refine ⟨by simp; omega, by simp; omega, by simpa using hcb', ?_, ?_⟩
          · refine ⟨_, rfl, ?_⟩
            intro x hx
            rcases List.mem_cons.mp hx with hx | hx
            · subst hx
              simp [DebugLogger.updEntry, pendingEntry]
              omega
            · obtain ⟨a, b⟩ := hwin' x hx
              simp
              omega
          · intro x hx
            rcases List.mem_append.mp hx with hx | hx
            · rcases List.mem_append.mp hx with hx | hx
              · have := mem_if_singleton hx
                subst this
                simp [pendingEntry]
                omega
              · obtain ⟨a, b⟩ := hev' x hx
                simp
                omega
            · have := mem_if_singleton hx
              subst this
              simp [DebugLogger.updEntry, pendingEntry]
              omega
      | none =>
          cases outcome with
          | raise e =>
              rw [asyncRun_error_eq (runOps body) cfg (Outcome.raise e) e st st₃ ev₁ btail hB
                (Or.inr ⟨hrb, rfl⟩) hlogs] at hrun
              obtain ⟨o, ho⟩ := dropResult_pair
                (if cfg.optional then Except.ok PyVal.none else Except.error e)
                ({ st₃ with
                    logs := st.logs ++ { DebugLogger.updEntry (pendingEntry cfg st) "error"
                        (Option.some (errorData cfg (trackInputData cfg) e)) with
                        contentType := "clickable" } :: btail
                    level := st₃.level - 1 })
                ((if st.status_callback then [pendingEntry cfg st] else []) ++ ev₁ ++
                  (if st₃.status_callback then
                    [DebugLogger.updEntry (pendingEntry cfg st) "error"
                      (Option.some (errorData cfg (trackInputData cfg) e))] else []))
              rw [ho] at hrun
              simp only [Prod.mk.injEq] at hrun
              obtain ⟨rfl, rfl, rfl⟩ := hrun
              refine ⟨by simp; omega, by simp; omega, by simpa using hcb', ?_, ?_⟩
              · refine ⟨_, rfl, ?_⟩
                intro x hx
                rcases List.mem_cons.mp hx with hx | hx
                · subst hx
                  simp [DebugLogger.updEntry, pendingEntry]
                  omega
                · obtain ⟨a, b⟩ := hwin' x hx
                  simp
                  omega
              · intro x hx
                rcases List.mem_append.mp hx with hx | hx
                · rcases List.mem_append.mp hx with hx | hx
                  · have := mem_if_singleton hx
                    subst this
                    simp [pendingEntry]
                    omega
                  · obtain ⟨a, b⟩ := hev' x hx
                    simp
                    omega
                · have := mem_if_singleton hx
                  subst this
                  simp [DebugLogger.updEntry, pendingEntry]
                  omega
          | ret v =>
              rw [asyncRun_success_eq (runOps body) cfg v st st₃ ev₁ btail hB hrb hlogs] at hrun
              simp only [dropResult, Prod.mk.injEq] at hrun
              obtain ⟨rfl, rfl, rfl⟩ := hrun
              refine ⟨by simp; omega, by simp; omega, by simpa using hcb', ?_, ?_⟩
              · refine ⟨_, rfl, ?_⟩
                intro x hx
                rcases List.mem_cons.mp hx with hx | hx
                · subst hx
                  simp [DebugLogger.updEntry, pendingEntry]
                  omega
                · obtain ⟨a, b⟩ := hwin' x hx
                  simp
                  omega
              · intro x hx
                rcases List.mem_append.mp hx with hx | hx
                · rcases List.mem_append.mp hx with hx | hx
                  · have := mem_if_singleton hx
                    subst this
                    simp [pendingEntry]
                    omega
                  · obtain ⟨a, b⟩ := hev' x hx
                    simp
                    omega
                · have := mem_if_singleton hx
                  subst this
                  simp [DebugLogger.updEntry, pendingEntry]
                  omega

/-- `runOp_spec` over a sequence of operations. -/
theorem runOps_spec (ops : OpList) (st st' : DebugLogger) (ev : List LogEntry)
    (exc : Option PyExc) (hops : trackedOnlyOps ops = true) (hB : idsBounded st)
    (hrun : runOps ops st = (st', ev, exc)) :
    st.current_id ≤ st'.current_id ∧ st'.level = st.level ∧
    st'.status_callback = st.status_callback ∧
    (∃ tail, st'.logs = st.logs ++ tail ∧
      ∀ e ∈ tail, st.current_id < e.id ∧ e.id ≤ st'.current_id) ∧
    (∀ e ∈ ev, st.current_id < e.id ∧ e.id ≤ st'.current_id) := by
  cases ops with
  | nil =>
      simp only [runOps, Prod.mk.injEq] at hrun
      obtain ⟨rfl, rfl, rfl⟩ := hrun
      exact ⟨le_refl _, rfl, rfl, ⟨[], by simp, by simp⟩, by simp⟩
  | cons op tl =>
      have hop : trackedOnlyOp op = true ∧ trackedOnlyOps tl = true := by
        simpa [trackedOnlyOps, Bool.and_eq_true] using hops
      rcases h1 : runOp op st with ⟨st₁, ev₁, exc₁⟩
      obtain ⟨m₁, l₁, c₁, ⟨t₁, lg₁, w₁⟩, e₁⟩ := runOp_spec op st st₁ ev₁ exc₁ hop.1 hB h1
      have hB₁ : idsBounded st₁ := by
        intro x hx
        rw [lg₁] at hx
        rcases List.mem_append.mp hx with hx | hx
        · exact le_trans (hB x hx) m₁
        · exact (w₁ x hx).2
      cases exc₁ with
      | some e =>
          simp only [runOps, h1, Prod.mk.injEq] at hrun
          obtain ⟨rfl, rfl, rfl⟩ := hrun
          exact ⟨m₁, l₁, c₁, ⟨t₁, lg₁, w₁⟩, e₁⟩
      | none =>
          rcases h2 : runOps tl st₁ with ⟨st₂, ev₂, exc₂⟩
          obtain ⟨m₂, l₂, c₂, ⟨t₂, lg₂, w₂⟩, e₂⟩ :=
            runOps_spec tl st₁ st₂ ev₂ exc₂ hop.2 hB₁ h2
          simp only [runOps, h1, h2, Prod.mk.injEq] at hrun
          obtain ⟨rfl, rfl, rfl⟩ := hrun
          refine ⟨le_trans m₁ m₂, l₂.trans l₁, c₂.trans c₁,
            ⟨t₁ ++ t₂, by rw [lg₂, lg₁, List.append_assoc], ?_⟩, ?_⟩
          · intro x hx
            rcases List.mem_append.mp hx with hx | hx
            · obtain ⟨a, b⟩ := w₁ x hx
              exact ⟨a, le_trans b m₂⟩
            · obtain ⟨a, b⟩ := w₂ x hx
              exact ⟨lt_of_le_of_lt m₁ a, b⟩
          · intro x hx
            rcases List.mem_append.mp hx with hx | hx
            · obtain ⟨a, b⟩ := e₁ x hx
              exact ⟨a, le_trans b m₂⟩
            · obtain ⟨a, b⟩ := e₂ x hx
              exact ⟨lt_of_le_of_lt m₁ a, b⟩
end

theorem addMany_ids (args : List AddArgs) (st : DebugLogger) :
    (addMany st args).1 = List.range' (st.current_id + 1) args.length := by
  induction args generalizing st with
  | nil => simp [addMany]
  | cons a rest ih =>
      simp only [addMany, DebugLogger.add_log, List.length_cons, List.range'_succ]
      rw [ih]

/-- **C2**: after a `clear()`, any sequence of `N` consecutive
`addEntry` calls returns exactly the ids `1, 2, ..., N` in call order
(`List.range' 1 N`), and a query for entries right after the `clear`
returns the empty list. -/
theorem ids_after_clear (st : DebugLogger) (args : List AddArgs) :
    (addMany st.clear args).1 = List.range' 1 args.length ∧
    st.clear.get_logs = [] := by
  refine ⟨?_, rfl⟩
  rw [addMany_ids]
  rfl

/-- **C6**: `update_log_status` with an id that matches no stored entry
is a silent no-op — no error, no subscriber invocation, and the whole
state (entries, id counter, level, callback) is unchanged. -/
theorem updateEntry_unknown_id_noop (st : DebugLogger) (log_id : Nat) (status : String)
    (data : Option PyVal) (h : ∀ e ∈ st.logs, e.id ≠ log_id) :
    st.update_log_status log_id status data = (st, []) :=
  DebugLogger.update_log_status_missing st log_id status data h

theorem updateEntry_unknown_id_noop_witness :
    sampleSt.update_log_status 2 "success" Option.none = (sampleSt, []) :=
  updateEntry_unknown_id_noop sampleSt 2 "success" Option.none (by decide)

/-- **C9**: `clear()` resets entries, id counter and level but leaves
the registered subscriber callback in place, so an `addEntry` performed
after the `clear` still notifies the previously registered subscriber. -/
theorem clear_keeps_subscriber (st : DebugLogger) (ts title status content_type : String)
    (data : Option PyVal) (parent_id : Option Nat) (function_name : Option String) :
    st.clear = { logs := [], current_id := 0, level := 0,
                 status_callback := st.status_callback } ∧
    (st.status_callback = true →
      (st.clear.add_log ts title status content_type data parent_id function_name).2.2 =
        [{ id := 1, parent_id := parent_id, level := 0, timestamp := ts, title := title,
           status := status, contentType := content_type, contentData := data,
           function_name := function_name }]) := by
  refine ⟨rfl, fun h => ?_⟩
  simp [DebugLogger.clear, DebugLogger.add_log, h]

theorem clear_keeps_subscriber_witness :
    sampleSt.clear = { logs := [], current_id := 0, level := 0,
                       status_callback := sampleSt.status_callback } ∧
    (sampleSt.clear.add_log "t1" "B" "pending" "inline" Option.none Option.none
        Option.none).2.2 =
      [{ id := 1, parent_id := Option.none, level := 0, timestamp := "t1", title := "B",
         status := "pending", contentType := "inline", contentData := Option.none,
         function_name := Option.none }] :=
  ⟨(clear_keeps_subscriber sampleSt "t1" "B" "pending" "inline" Option.none Option.none
      Option.none).1,
   (clear_keeps_subscriber sampleSt "t1" "B" "pending" "inline" Option.none Option.none
      Option.none).2 rfl⟩

/-- **C10**: updating an existing id rewrites exactly the first entry
carrying that id, and on that entry exactly the `status` field — plus
the content `data` field when (and only when) replacement data is
passed; every other entry, and every other field of the state, is
untouched. -/
theorem updateEntry_frame (st : DebugLogger) (pre : List LogEntry) (e : LogEntry)
    (post : List LogEntry) (status : String) (data : Option PyVal)
    (hsplit : st.logs = pre ++ e :: post) (hpre : ∀ x ∈ pre, x.id ≠ e.id) :
    (st.update_log_status e.id status data).1 =
      { st with logs := pre ++
          { e with
              status := status
              contentData := match data with
                | Option.some d => Option.some d
                | Option.none => e.contentData } :: post } := by
  rw [DebugLogger.update_log_status_found st pre e post e.id status data hsplit rfl hpre]
  rfl

theorem updateEntry_frame_witness :
    (sampleSt.update_log_status 1 "success" (Option.some (PyVal.str "out"))).1 =
      { sampleSt with logs :=
          [{ sampleEntry with
              status := "success"
              contentData := Option.some (PyVal.str "out") }] } := by
  have h := updateEntry_frame sampleSt [] sampleEntry [] "success"
    (Option.some (PyVal.str "out")) rfl (by decide)
  simpa using h

/-- **C8**: the synchronous and asynchronous instrumentation wrappers
are behaviorally equivalent — for the same wrapped operation (body
semantics and outcome) and the same configuration they return the same
value or propagated exception, produce the same final store state, and
emit the same subscriber events. -/
theorem wrapper_equivalence : AsyncWrapper.run = SyncWrapper.run := rfl

theorem updateFirst_ids (l : List LogEntry) (i : Nat) (s : String) (d : Option PyVal) :
    ((DebugLogger.updateFirst l i s d).1).map LogEntry.id = l.map LogEntry.id := by
  induction l with
  | nil => rfl
  | cons e rest ih =>
      by_cases he : e.id = i <;>
        simp [DebugLogger.updateFirst, he, DebugLogger.updEntry, ih]

theorem update_log_status_fst (st : DebugLogger) (i : Nat) (s : String) (d : Option PyVal) :
    (st.update_log_status i s d).1 =
      { st with logs := (DebugLogger.updateFirst st.logs i s d).1 } := by
  unfold DebugLogger.update_log_status
  rcases h : DebugLogger.updateFirst st.logs i s d with ⟨l, f⟩
  rfl

/-- **C4**: the `level` recorded on a tracked call's entry equals the
nesting depth at the moment the call was entered — the store's depth
counter right after the wrapper's `self.level += 1`, i.e. the number of
currently-open instrumented calls enclosing the entry at creation time,
the creating call included — and the depth counter returns to its prior
value after the call exits, whether the call returns or raises. -/
theorem tracked_level_and_restore (cfg : TrackCfg) (body : OpList) (outcome : Outcome)
    (st st' : DebugLogger) (ev : List LogEntry) (exc : Option PyExc)
    (hbody : trackedOnlyOps body = true) (hB : idsBounded st)
    (hrun : runOp (Op.tracked cfg body outcome) st = (st', ev, exc)) :
    (∃ entry tail, st'.logs = st.logs ++ entry :: tail ∧
      entry.id = st.current_id + 1 ∧ entry.level = st.level + 1) ∧
    st'.level = st.level := by
  rcases hrb : runOps body (trackedEnter cfg st) with ⟨st₃, ev₁, bexc⟩
  obtain ⟨hmono, hlvl, hcb, ⟨btail, hlogs3, hwin⟩, hev⟩ :=
    runOps_spec body (trackedEnter cfg st) st₃ ev₁ bexc hbody
      (idsBounded_trackedEnter cfg st hB) hrb
  have hlvl' : st₃.level = st.level + 1 := by simpa [trackedEnter] using hlvl
  have hlogs : st₃.logs = st.logs ++ pendingEntry cfg st :: btail := by
    rw [hlogs3]; simp [trackedEnter]
  rw [runOp_tracked_eq_asyncRun] at hrun
  cases bexc with
  | some e =>
      rw [asyncRun_error_eq (runOps body) cfg outcome e st st₃ ev₁ btail hB
        (Or.inl hrb) hlogs] at hrun
      cases hopt : cfg.optional <;>
        (simp only [hopt, Bool.false_eq_true, if_true, if_false, dropResult,
          Prod.mk.injEq] at hrun
         obtain ⟨rfl, rfl, rfl⟩ := hrun
         refine ⟨⟨{ DebugLogger.updEntry (pendingEntry cfg st) "error"
             (Option.some (errorData cfg (trackInputData cfg) e)) with
             contentType := "clickable" }, btail, by simp,
           by simp [DebugLogger.updEntry, pendingEntry],
           by simp [DebugLogger.updEntry, pendingEntry]⟩, by simp; omega⟩)
  | none =>
      cases outcome with
      | raise e =>
          rw [asyncRun_error_eq (runOps body) cfg (Outcome.raise e) e st st₃ ev₁ btail hB
            (Or.inr ⟨hrb, rfl⟩) hlogs] at hrun
          cases hopt : cfg.optional <;>
            (simp only [hopt, Bool.false_eq_true, if_true, if_false, dropResult,
              Prod.mk.injEq] at hrun
             obtain ⟨rfl, rfl, rfl⟩ := hrun
             refine ⟨⟨{ DebugLogger.updEntry (pendingEntry cfg st) "error"
                 (Option.some (errorData cfg (trackInputData cfg) e)) with
                 contentType := "clickable" }, btail, by simp,
               by simp [DebugLogger.updEntry, pendingEntry],
               by simp [DebugLogger.updEntry, pendingEntry]⟩, by simp; omega⟩)
      | ret v =>
          rw [asyncRun_success_eq (runOps body) cfg v st st₃ ev₁ btail hB hrb hlogs] at hrun
          simp only [dropResult, Prod.mk.injEq] at hrun
          obtain ⟨rfl, rfl, rfl⟩ := hrun
          refine ⟨⟨DebugLogger.updEntry (pendingEntry cfg st) "success"
              (Option.some (successData cfg (trackInputData cfg) v)), btail, by simp,
            by simp [DebugLogger.updEntry, pendingEntry],
            by simp [DebugLogger.updEntry, pendingEntry]⟩, by simp; omega⟩

theorem tracked_level_and_restore_witness :
    (∃ entry tail,
      (runOp (Op.tracked sampleCfg OpList.nil (Outcome.ret PyVal.none))
          DebugLogger.init).1.logs = DebugLogger.init.logs ++ entry :: tail ∧
      entry.id = DebugLogger.init.current_id + 1 ∧
      entry.level = DebugLogger.init.level + 1) ∧
    (runOp (Op.tracked sampleCfg OpList.nil (Outcome.ret PyVal.none))
        DebugLogger.init).1.level = DebugLogger.init.level :=
  tracked_level_and_restore sampleCfg OpList.nil (Outcome.ret PyVal.none)
    DebugLogger.init _ _ _ rfl (by intro x hx; simp [DebugLogger.init] at hx) rfl

/-- **C5**: a tracked call that completes normally while a subscriber is
registered produces exactly two subscriber notifications carrying its
entry id — first the `pending` entry, then the `success` entry. -/
theorem tracked_success_notifications (cfg : TrackCfg) (body : OpList) (v : PyVal)
    (st st₃ st' : DebugLogger) (ev₁ ev : List LogEntry) (exc : Option PyExc)
    (hbody : trackedOnlyOps body = true) (hB : idsBounded st)
    (hcb : st.status_callback = true)
    (hrb : runOps body (trackedEnter cfg st) = (st₃, ev₁, Option.none))
    (hrun : runOp (Op.tracked cfg body (Outcome.ret v)) st = (st', ev, exc)) :
    (ev.filter (fun x => x.id == st.current_id + 1)).map LogEntry.status =
      ["pending", "success"] := by
  obtain ⟨hmono, hlvl, hcb3, ⟨btail, hlogs3, hwin⟩, hev⟩ :=
    runOps_spec body (trackedEnter cfg st) st₃ ev₁ Option.none hbody
      (idsBounded_trackedEnter cfg st hB) hrb
  have hcb3' : st₃.status_callback = true := by
    have : st₃.status_callback = st.status_callback := by simpa [trackedEnter] using hcb3
    rw [this, hcb]
  have hev' : ∀ x ∈ ev₁, st.current_id + 1 < x.id := fun x hx => by
    have := (hev x hx).1
    simpa [trackedEnter] using this
  have hlogs : st₃.logs = st.logs ++ pendingEntry cfg st :: btail := by
    rw [hlogs3]; simp [trackedEnter]
  rw [runOp_tracked_eq_asyncRun] at hrun
  rw [asyncRun_success_eq (runOps body) cfg v st st₃ ev₁ btail hB hrb hlogs] at hrun
  simp only [dropResult, Prod.mk.injEq] at hrun
  obtain ⟨rfl, rfl, rfl⟩ := hrun
  rw [hcb, hcb3']
  simp only [if_true]
  rw [List.filter_append, List.filter_append]
  have h₁ : List.filter (fun x => x.id == st.current_id + 1) [pendingEntry cfg st] =
      [pendingEntry cfg st] := by
    simp [pendingEntry]
  have h₂ : List.filter (fun x => x.id == st.current_id + 1) ev₁ = [] := by
    rw [List.filter_eq_nil_iff]
    intro x hx
    have := hev' x hx
    simp
    omega
  have h₃ : List.filter (fun x => x.id == st.current_id + 1)
      [DebugLogger.updEntry (pendingEntry cfg st) "success"
        (Option.some (successData cfg (trackInputData cfg) v))] =
      [DebugLogger.updEntry (pendingEntry cfg st) "success"
        (Option.some (successData cfg (trackInputData cfg) v))] := by
    simp [DebugLogger.updEntry, pendingEntry]
  rw [h₁, h₂, h₃]
  rfl

theorem tracked_success_notifications_witness :
    (((runOp (Op.tracked sampleCfg OpList.nil (Outcome.ret (PyVal.str "ok")))
          sampleSt).2.1).filter
        (fun x => x.id == sampleSt.current_id + 1)).map LogEntry.status =
      ["pending", "success"] :=
  tracked_success_notifications sampleCfg OpList.nil (PyVal.str "ok") sampleSt
    _ _ _ _ _ rfl (by intro e he; simp [sampleSt] at he; subst he; decide) rfl rfl rfl

/-- **C3 counterexample**: under raw store operations the claimed
lifecycle invariant fails — an entry that has reached the terminal
status `success` is mutated again to `error` by a further
`update_log_status` call (and `add_log`'s default status is `success`,
so raw entries need not start `pending` either). -/
theorem status_mutated_after_terminal :
    ((runOps (OpList.cons
        (Op.addEntry "t0" "Step" "pending" "inline" Option.none Option.none Option.none)
        (OpList.cons (Op.updateEntry 1 "success" Option.none) OpList.nil))
      DebugLogger.init).1.logs.map LogEntry.status = ["success"]) ∧
    ((runOps (OpList.cons
        (Op.addEntry "t0" "Step" "pending" "inline" Option.none Option.none Option.none)
        (OpList.cons (Op.updateEntry 1 "success" Option.none)
          (OpList.cons (Op.updateEntry 1 "error" Option.none) OpList.nil)))
      DebugLogger.init).1.logs.map LogEntry.status = ["error"]) :=
  ⟨rfl, rfl⟩

/-- **C3 (amended)**: for entries created by the instrumentation
wrapper (runs of tracked calls with disciplined bodies), the lifecycle
holds: the entry is created with status `pending`, its status is
updated exactly once to a terminal status (`success` or `error`), and
with a registered subscriber the notifications carrying its id are
exactly the pending one followed by the terminal one. -/
theorem tracked_entry_lifecycle (cfg : TrackCfg) (body : OpList) (outcome : Outcome)
    (st st₃ st' : DebugLogger) (ev₁ ev : List LogEntry) (bexc exc : Option PyExc)
    (hbody : trackedOnlyOps body = true) (hB : idsBounded st)
    (hcb : st.status_callback = true)
    (hrb : runOps body (trackedEnter cfg st) = (st₃, ev₁, bexc))
    (hrun : runOp (Op.tracked cfg body outcome) st = (st', ev, exc)) :
    ∃ entry tail, st'.logs = st.logs ++ entry :: tail ∧
      entry.id = st.current_id + 1 ∧
      (entry.status = "success" ∨ entry.status = "error") ∧
      (ev.filter (fun x => x.id == st.current_id + 1)).map LogEntry.status =
        ["pending", entry.status] := by
  obtain ⟨hmono, hlvl, hcb3, ⟨btail, hlogs3, hwin⟩, hev⟩ :=
    runOps_spec body (trackedEnter cfg st) st₃ ev₁ bexc hbody
      (idsBounded_trackedEnter cfg st hB) hrb
  have hcb3' : st₃.status_callback = true := by
    have : st₃.status_callback = st.status_callback := by simpa [trackedEnter] using hcb3
    rw [this, hcb]
  have hev' : ∀ x ∈ ev₁, st.current_id + 1 < x.id := fun x hx => by
    have := (hev x hx).1
    simpa [trackedEnter] using this
  have hfilter₁ : List.filter (fun x => x.id == st.current_id + 1) ev₁ = [] := by
    rw [List.filter_eq_nil_iff]
    intro x hx
    have := hev' x hx
    simp
    omega
  have hlogs : st₃.logs = st.logs ++ pendingEntry cfg st :: btail := by
    rw [hlogs3]; simp [trackedEnter]
  rw [runOp_tracked_eq_asyncRun] at hrun
  cases bexc with
  | some e =>
      rw [asyncRun_error_eq (runOps body) cfg outcome e st st₃ ev₁ btail hB
        (Or.inl hrb) hlogs] at hrun
      cases hopt : cfg.optional <;>
        (simp only [hopt, Bool.false_eq_true, if_true, if_false, dropResult,
          Prod.mk.injEq] at hrun
         obtain ⟨rfl, rfl, rfl⟩ := hrun
         refine ⟨{ DebugLogger.updEntry (pendingEntry cfg st) "error"
             (Option.some (errorData cfg (trackInputData cfg) e)) with
             contentType := "clickable" }, btail, by simp,
           by simp [DebugLogger.updEntry, pendingEntry],
           Or.inr (by simp [DebugLogger.updEntry]), ?_⟩
         rw [hcb, hcb3']
         simp only [if_true]
         rw [List.filter_append, List.filter_append, hfilter₁]
         simp [DebugLogger.updEntry, pendingEntry])
  | none =>
      cases outcome with
      | raise e =>
          rw [asyncRun_error_eq (runOps body) cfg (Outcome.raise e) e st st₃ ev₁ btail hB
            (Or.inr ⟨hrb, rfl⟩) hlogs] at hrun
          cases hopt : cfg.optional <;>
            (simp only [hopt, Bool.false_eq_true, if_true, if_false, dropResult,
              Prod.mk.injEq] at hrun
             obtain ⟨rfl, rfl, rfl⟩ := hrun
             refine ⟨{ DebugLogger.updEntry (pendingEntry cfg st) "error"
                 (Option.some (errorData cfg (trackInputData cfg) e)) with
                 contentType := "clickable" }, btail, by simp,
               by simp [DebugLogger.updEntry, pendingEntry],
               Or.inr (by simp [DebugLogger.updEntry]), ?_⟩
             rw [hcb, hcb3']
             simp only [if_true]
             rw [List.filter_append, List.filter_append, hfilter₁]
             simp [DebugLogger.updEntry, pendingEntry])
      | ret v =>
          rw [asyncRun_success_eq (runOps body) cfg v st st₃ ev₁ btail hB hrb hlogs] at hrun
          simp only [dropResult, Prod.mk.injEq] at hrun
          obtain ⟨rfl, rfl, rfl⟩ := hrun
          refine ⟨DebugLogger.updEntry (pendingEntry cfg st) "success"
              (Option.some (successData cfg (trackInputData cfg) v)), btail, by simp,
            by simp [DebugLogger.updEntry, pendingEntry],
            Or.inl (by simp [DebugLogger.updEntry]), ?_⟩
          rw [hcb, hcb3']
          simp only [if_true]
          rw [List.filter_append, List.filter_append, hfilter₁]
          simp [DebugLogger.updEntry, pendingEntry]

theorem tracked_entry_lifecycle_witness :
    ∃ entry tail,
      (runOp (Op.tracked sampleCfg OpList.nil (Outcome.raise sampleExc))
          sampleSt).1.logs = sampleSt.logs ++ entry :: tail ∧
      entry.id = sampleSt.current_id + 1 ∧
      (entry.status = "success" ∨ entry.status = "error") ∧
      (((runOp (Op.tracked sampleCfg OpList.nil (Outcome.raise sampleExc))
          sampleSt).2.1).filter
        (fun x => x.id == sampleSt.current_id + 1)).map LogEntry.status =
        ["pending", entry.status] :=
  tracked_entry_lifecycle sampleCfg OpList.nil (Outcome.raise sampleExc) sampleSt
    _ _ _ _ _ _ rfl (by intro e he; simp [sampleSt] at he; subst he; decide) rfl rfl rfl

/-- **C1**: when a tracked call fails — its body raised `e`, or its
wrapped function raised `e` after the body completed — the wrapper
leaves the call's entry with terminal status `error` and content kind
forced to `clickable`; if the call is `optional` the wrapper returns
`None` and no exception escapes, and if it is not, the same exception
`e` propagates to the caller. -/
theorem tracked_failure_handling (cfg : TrackCfg) (body : OpList) (outcome : Outcome)
    (e : PyExc) (st st₃ st' : DebugLogger) (ev₁ ev : List LogEntry) (exc : Option PyExc)
    (hbody : trackedOnlyOps body = true) (hB : idsBounded st)
    (hfail : runOps body (trackedEnter cfg st) = (st₃, ev₁, Option.some e) ∨
             (runOps body (trackedEnter cfg st) = (st₃, ev₁, Option.none) ∧
              outcome = Outcome.raise e))
    (hrun : runOp (Op.tracked cfg body outcome) st = (st', ev, exc)) :
    (∃ entry tail, st'.logs = st.logs ++ entry :: tail ∧
      entry.id = st.current_id + 1 ∧ entry.status = "error" ∧
      entry.contentType = "clickable") ∧
    (AsyncWrapper.run (runOps body) cfg outcome st).1 =
      (if cfg.optional then Except.ok PyVal.none else Except.error e) ∧
    (cfg.optional = true → exc = Option.none) ∧
    (cfg.optional = false → exc = Option.some e) := by
  have hbx : ∃ bexc, runOps body (trackedEnter cfg st) = (st₃, ev₁, bexc) := by
    rcases hfail with h | ⟨h, _⟩
    · exact ⟨_, h⟩
    · exact ⟨_, h⟩
  obtain ⟨bexc, hrb⟩ := hbx
  obtain ⟨hmono, hlvl, hcb3, ⟨btail, hlogs3, hwin⟩, hev⟩ :=
    runOps_spec body (trackedEnter cfg st) st₃ ev₁ bexc hbody
      (idsBounded_trackedEnter cfg st hB) hrb
  have hlogs : st₃.logs = st.logs ++ pendingEntry cfg st :: btail := by
    rw [hlogs3]; simp [trackedEnter]
  have herr := asyncRun_error_eq (runOps body) cfg outcome e st st₃ ev₁ btail hB hfail hlogs
  rw [runOp_tracked_eq_asyncRun, herr] at hrun
  have hentry : ∃ entry tail, st'.logs = st.logs ++ entry :: tail ∧
      entry.id = st.current_id + 1 ∧ entry.status = "error" ∧
      entry.contentType = "clickable" := by
    cases hopt : cfg.optional <;>
      (simp only [hopt, Bool.false_eq_true, if_true, if_false, dropResult,
        Prod.mk.injEq] at hrun
       obtain ⟨rfl, rfl, rfl⟩ := hrun
       exact ⟨{ DebugLogger.updEntry (pendingEntry cfg st) "error"
           (Option.some (errorData cfg (trackInputData cfg) e)) with
           contentType := "clickable" }, btail, by simp,
         by simp [DebugLogger.updEntry, pendingEntry],
         by simp [DebugLogger.updEntry],
         by simp⟩)
  refine ⟨hentry, by rw [herr], fun hopt => ?_, fun hopt => ?_⟩
  · simp only [hopt, if_true, dropResult, Prod.mk.injEq] at hrun
    exact hrun.2.2.symm
  · simp only [hopt, Bool.false_eq_true, if_false, dropResult, Prod.mk.injEq] at hrun
    exact hrun.2.2.symm

theorem tracked_failure_handling_witness :
    (∃ entry tail,
      (runOp (Op.tracked sampleOptCfg OpList.nil (Outcome.raise sampleExc))
          DebugLogger.init).1.logs = DebugLogger.init.logs ++ entry :: tail ∧
      entry.id = DebugLogger.init.current_id + 1 ∧ entry.status = "error" ∧
      entry.contentType = "clickable") ∧
    (AsyncWrapper.run (runOps OpList.nil) sampleOptCfg (Outcome.raise sampleExc)
        DebugLogger.init).1 =
      (if sampleOptCfg.optional then Except.ok PyVal.none else Except.error sampleExc) ∧
    (runOp (Op.tracked sampleOptCfg OpList.nil (Outcome.raise sampleExc))
        DebugLogger.init).2.2 = Option.none :=
  have h := tracked_failure_handling sampleOptCfg OpList.nil (Outcome.raise sampleExc)
    sampleExc DebugLogger.init _ _ _ _ _ rfl
    (by intro x hx; simp [DebugLogger.init] at hx) (Or.inr ⟨rfl, rfl⟩) rfl
  ⟨h.1, h.2.1, h.2.2.1 rfl⟩

theorem trackedSuccessFinish_level (cfg : TrackCfg) (input_data : PyDict)
    (log_id : Nat) (result : PyVal) (st : DebugLogger) :
    (trackedSuccessFinish cfg input_data log_id result st).2.1.level = st.level - 1 := by
  unfold trackedSuccessFinish
  rcases h : st.update_log_status log_id "success"
      (Option.some (successData cfg input_data result)) with ⟨s1, ev⟩
  have hh := update_log_status_fst st log_id "success"
    (Option.some (successData cfg input_data result))
  rw [h] at hh
  simp only at hh
  subst hh
  rfl

theorem trackedErrorFinish_level (cfg : TrackCfg) (input_data : PyDict)
    (log_id : Nat) (e : PyExc) (st : DebugLogger) :
    (trackedErrorFinish cfg input_data log_id e st).2.1.level = st.level - 1 := by
  unfold trackedErrorFinish
  rcases h : st.update_log_status log_id "error"
      (Option.some (errorData cfg input_data e)) with ⟨s1, ev⟩
  have hh := update_log_status_fst st log_id "error"
    (Option.some (errorData cfg input_data e))
  rw [h] at hh
  simp only at hh
  subst hh
  rfl

mutual
/-- A wrapper-safe operation — a nested tracked call, an `add_log`, or
an `update_log_status` — leaves the store's nesting level exactly where
it found it: the wrapper's increment is always undone by its `finally`
decrement, on success and on failure alike, and the two raw entry
operations never touch the level. -/
theorem runOp_level (op : Op) (st st' : DebugLogger) (ev : List LogEntry)
    (exc : Option PyExc) (hop : levelSafeOp op = true)
    (hrun : runOp op st = (st', ev, exc)) : st'.level = st.level := by
  cases op with
  | addEntry ts title status ct d p f =>
      simp only [runOp, DebugLogger.add_log, Prod.mk.injEq] at hrun
      obtain ⟨rfl, -, -⟩ := hrun
      rfl
  | updateEntry i s d =>
      rcases hu : st.update_log_status i s d with ⟨s1, e1⟩
      simp only [runOp, hu, Prod.mk.injEq] at hrun
      obtain ⟨rfl, -, -⟩ := hrun
      have hfst : s1 = { st with logs := (DebugLogger.updateFirst st.logs i s d).1 } := by
        have h := update_log_status_fst st i s d
        rw [hu] at h
        exact h
      subst hfst
      rfl
  | startSec ts t d ct => simp [levelSafeOp] at hop
  | endSec => simp [levelSafeOp] at hop
  | clearOp => simp [levelSafeOp] at hop
  | setCallback b => simp [levelSafeOp] at hop
  | tracked cfg body outcome =>
      have hbody : levelSafeOps body = true := by simpa [levelSafeOp] using hop
      rcases hrb : runOps body (trackedEnter cfg st) with ⟨st₃, ev₁, bexc⟩
      have h3 : st₃.level = st.level + 1 := by
        have := runOps_level body (trackedEnter cfg st) st₃ ev₁ bexc hbody hrb
        simpa [trackedEnter] using this
      rw [runOp_tracked_eq_asyncRun] at hrun
      cases bexc with
      | some e =>
          simp only [AsyncWrapper.run, add_log_pending, hrb] at hrun
          rcases hf : trackedErrorFinish cfg (trackInputData cfg) (st.current_id + 1) e st₃
            with ⟨r, st₄, ev₂⟩
          simp only [hf] at hrun
          have hl := trackedErrorFinish_level cfg (trackInputData cfg)
            (st.current_id + 1) e st₃
          rw [hf] at hl
          simp only at hl
          cases r <;>
            (simp only [dropResult, Prod.mk.injEq] at hrun
             obtain ⟨rfl, -, -⟩ := hrun
             omega)
      | none =>
          cases outcome with
          | ret v =>
              simp only [AsyncWrapper.run, add_log_pending, hrb] at hrun
              rcases hf : trackedSuccessFinish cfg (trackInputData cfg)
                  (st.current_id + 1) v st₃ with ⟨r, st₄, ev₂⟩
              simp only [hf] at hrun
              have hl := trackedSuccessFinish_level cfg (trackInputData cfg)
                (st.current_id + 1) v st₃
              rw [hf] at hl
              simp only at hl
              cases r <;>
                (simp only [dropResult, Prod.mk.injEq] at hrun
                 obtain ⟨rfl, -, -⟩ := hrun
                 omega)
          | raise e =>
              simp only [AsyncWrapper.run, add_log_pending, hrb] at hrun
              rcases hf : trackedErrorFinish cfg (trackInputData cfg)
                  (st.current_id + 1) e st₃ with ⟨r, st₄, ev₂⟩
              simp only [hf] at hrun
              have hl := trackedErrorFinish_level cfg (trackInputData cfg)
                (st.current_id + 1) e st₃
              rw [hf] at hl
              simp only at hl
              cases r <;>
                (simp only [dropResult, Prod.mk.injEq] at hrun
                 obtain ⟨rfl, -, -⟩ := hrun
                 omega)

/-- `runOp_level` over a sequence of wrapper-safe operations, an early
exception included. -/
theorem runOps_level (ops : OpList) (st st' : DebugLogger) (ev : List LogEntry)
    (exc : Option PyExc) (hops : levelSafeOps ops = true)
    (hrun : runOps ops st = (st', ev, exc)) : st'.level = st.level := by
  cases ops with
  | nil =>
      simp only [runOps, Prod.mk.injEq] at hrun
      obtain ⟨rfl, -, -⟩ := hrun
      rfl
  | cons op tl =>
      have hop : levelSafeOp op = true ∧ levelSafeOps tl = true := by
        simpa [levelSafeOps, Bool.and_eq_true] using hops
      rcases h1 : runOp op st with ⟨st₁, ev₁, exc₁⟩
      have step := runOp_level op st st₁ ev₁ exc₁ hop.1 h1
      cases exc₁ with
      | some e =>
          simp only [runOps, h1, Prod.mk.injEq] at hrun
          obtain ⟨rfl, -, -⟩ := hrun
          exact step
      | none =>
          rcases h2 : runOps tl st₁ with ⟨st₂, ev₂, exc₂⟩
          simp only [runOps, h1, h2, Prod.mk.injEq] at hrun
          obtain ⟨rfl, -, -⟩ := hrun
          rw [runOps_level tl st₁ st₂ ev₂ exc₂ hop.2 h2, step]
end

/-- **C7 counterexample**: the wrapper's implicit leave is the
unclamped `self.level -= 1` in its `finally`, unlike `end_section`'s
`max(0, ...)`: a tracked call whose body performs one unmatched
`end_section` reaches the `finally` with the level already at zero and
drives it to `-1` — so "invoking leave() when the level is already zero
leaves it at zero" fails for the wrapper's implicit leave, and the
store level does drop below zero. -/
theorem wrapper_leave_goes_negative :
    (runOp (Op.tracked sampleCfg (OpList.cons Op.endSec OpList.nil)
        (Outcome.ret PyVal.none)) DebugLogger.init).1.level = -1 := by
  decide

/-- **C7 (amended)**: `end_section` itself clamps at zero (invoking it
at level zero leaves the level at zero), and for sequences whose
tracked bodies are wrapper-disciplined — nested instrumented calls and
raw entry additions/updates, but no `clear` or unmatched
`start_section`/`end_section` between a wrapper's enter and its paired
leave — the store level never drops below zero, the wrapper's unclamped
decrement included. -/
theorem level_never_negative (ops : OpList) (st st' : DebugLogger) (ev : List LogEntry)
    (exc : Option PyExc) (hops : disciplinedOps ops = true)
    (hlv : 0 ≤ st.level) (hrun : runOps ops st = (st', ev, exc)) :
    0 ≤ st'.level := by
  cases ops with
  | nil =>
      simp only [runOps, Prod.mk.injEq] at hrun
      obtain ⟨rfl, -, -⟩ := hrun
      exact hlv
  | cons op tl =>
      have hop : disciplinedOp op = true ∧ disciplinedOps tl = true := by
        simpa [disciplinedOps, Bool.and_eq_true] using hops
      rcases h1 : runOp op st with ⟨st₁, ev₁, exc₁⟩
      have step : 0 ≤ st₁.level := by
        cases op with
        | addEntry ts title status ct d p f =>
            simp only [runOp, DebugLogger.add_log, Prod.mk.injEq] at h1
            obtain ⟨rfl, -, -⟩ := h1
            simpa using hlv
        | updateEntry i s d =>
            rcases hu : st.update_log_status i s d with ⟨s1, e1⟩
            simp only [runOp, hu, Prod.mk.injEq] at h1
            obtain ⟨rfl, -, -⟩ := h1
            have hfst : s1 = { st with logs := (DebugLogger.updateFirst st.logs i s d).1 } := by
              have h := update_log_status_fst st i s d
              rw [hu] at h
              exact h
            subst hfst
            simpa using hlv
        | startSec ts t d ct =>
            simp only [runOp, DebugLogger.start_section, DebugLogger.add_log,
              Prod.mk.injEq] at h1
            obtain ⟨rfl, -, -⟩ := h1
            simp
            omega
        | endSec =>
            simp only [runOp, Prod.mk.injEq] at h1
            obtain ⟨rfl, -, -⟩ := h1
            simp [DebugLogger.end_section]
        | clearOp =>
            simp only [runOp, Prod.mk.injEq] at h1
            obtain ⟨rfl, -, -⟩ := h1
            simp [DebugLogger.clear]
        | setCallback b =>
            simp only [runOp, Prod.mk.injEq] at h1
            obtain ⟨rfl, -, -⟩ := h1
            exact hlv
        | tracked cfg bd oc =>
            have hsafe : levelSafeOp (Op.tracked cfg bd oc) = true := by
              simpa [levelSafeOp, disciplinedOp] using hop.1
            rw [runOp_level (Op.tracked cfg bd oc) st st₁ ev₁ exc₁ hsafe h1]
            exact hlv
      cases exc₁ with
      | some e2 =>
          simp only [runOps, h1, Prod.mk.injEq] at hrun
          obtain ⟨rfl, -, -⟩ := hrun
          exact step
      | none =>
          rcases h2 : runOps tl st₁ with ⟨st₂, ev₂, exc₂⟩
          simp only [runOps, h1, h2, Prod.mk.injEq] at hrun
          obtain ⟨rfl, -, -⟩ := hrun
          exact level_never_negative tl st₁ st₂ ev₂ exc₂ hop.2 step h2

theorem level_never_negative_witness :
    0 ≤ (runOps (OpList.cons Op.endSec
        (OpList.cons (Op.tracked sampleCfg
          (OpList.cons (Op.addEntry "t2" "Note" "success" "inline" Option.none
              Option.none Option.none)
            (OpList.cons (Op.updateEntry 1 "success" Option.none) OpList.nil))
          (Outcome.ret PyVal.none))
          OpList.nil)) DebugLogger.init).1.level :=
  level_never_negative
    (OpList.cons Op.endSec
      (OpList.cons (Op.tracked sampleCfg
        (OpList.cons (Op.addEntry "t2" "Note" "success" "inline" Option.none
            Option.none Option.none)
          (OpList.cons (Op.updateEntry 1 "success" Option.none) OpList.nil))
        (Outcome.ret PyVal.none))
        OpList.nil))
    DebugLogger.init _ _ _ rfl (by decide) rfl
